import Mathlib

/-!
Verification of the two computational components of the repository
(Advent of Code 2021 solutions):

* `src/2021/01/day01.py` — `increases`, a sliding-window increase counter.
* `src/2021/02/day02.py` — `interpret` / `process_simple` / `process_advanced` /
  `pilot`, a two-mode submarine position tracker.

The Python code works on floats seeded with `math.inf` sentinels; we embed
the numeric values as rationals (`ℚ`) and the sentinel `+inf` as `none` in
`Option ℚ`, with the IEEE comparison behaviour of `+inf` (`inf > inf` is
false, `finite > inf` is false, `inf > finite` is true) made explicit in
`evGt`.  Python exceptions are embedded as `Except`.
-/

namespace Day01

/-- Addition of two extended values, where `none` stands for `+inf`:
any `+inf` summand makes the result `+inf` (mirrors Python float addition
with `math.inf`; no `-inf` ever occurs here, so no NaN can arise). -/
def evAdd (a b : Option ℚ) : Option ℚ :=
  match a, b with
  | some x, some y => some (x + y)
  | _, _ => none

/-- Sum of a list of extended values (mirrors Python `sum` over floats
that may contain `math.inf`). -/
def evSum : List (Option ℚ) → Option ℚ
  | [] => some 0
  | a :: rest => evAdd a (evSum rest)

/-- Division of an extended value by the window size: `+inf / w = +inf`
for positive `w` (mirrors Python float division). -/
def evDiv (a : Option ℚ) (w : ℤ) : Option ℚ := a.map (fun q => q / (w : ℚ))

/-- Strict `>` on extended values with `none = +inf`, following IEEE float
comparison as Python performs it: `inf > inf` is `False`, `x > inf` is
`False` for finite `x`, `inf > y` is `True` for finite `y`. -/
def evGt (a b : Option ℚ) : Bool :=
  match a, b with
  | some x, some y => decide (y < x)
  | none, some _ => true
  | _, none => false

/-- Embedding of the inner `count` function of `increases`
(src/2021/01/day01.py, lines 143–167): append the measurement to the
window, compare the average of the new window (all but the first element)
with the average of the old window (all but the last element), and advance
the window.  The `out` calls in the source only print to stderr and do not
affect the state, so they are omitted. -/
def count (window_size : ℤ) (last : ℕ × List (Option ℚ)) (measurement : ℚ) :
    ℕ × List (Option ℚ) :=
  let window := last.2 ++ [some measurement]
  let new := evDiv (evSum window.tail) window_size
  let old := evDiv (evSum window.dropLast) window_size
  ((if evGt new old then last.1 + 1 else last.1), window.tail)

/-- Embedding of `increases` (src/2021/01/day01.py, lines 103–173):
range-check the window size, then reduce all measurements through `count`
starting from zero increases and a window of `window_size` infinities.
The raised `ValueError` is embedded as `Except.error` carrying the
exception's message string. -/
def increases (measurements : List ℚ) (window_size : ℤ) : Except String ℕ :=
  if window_size ≤ 0 then
    Except.error ("Window size must be greater than zero")
  else
    Except.ok
      (measurements.foldl (count window_size)
        (0, List.replicate window_size.toNat none)).1

/-- Sum of the length-`w` window of `ms` starting at index `j`
(specification-side helper; independent of the fold in the code). -/
def windowSum (ms : List ℚ) (w j : ℕ) : ℚ := ((ms.drop j).take w).sum

/-- Specification-side count: the number of adjacent pairs of length-`w`
sliding windows whose later window has the strictly larger sum.  There are
`ms.length - w` such comparisons (window `j+1` against window `j`). -/
def specIncreases (ms : List ℚ) (w : ℕ) : ℕ :=
  (List.range (ms.length - w)).countP
    (fun j => decide (windowSum ms w j < windowSum ms w (j + 1)))

/-- Pairwise count: number of measurements strictly greater than their
immediate predecessor (specification-side helper for the `window_size = 1`
degenerate case). -/
def pairCount : List ℚ → ℕ
  | a :: b :: rest => (if a < b then 1 else 0) + pairCount (b :: rest)
  | _ => 0

/-! ### Supporting lemmas for `increases` -/

lemma evGt_none (a : Option ℚ) : evGt a none = false := by
  cases a <;> rfl

lemma evGt_evDiv (a b : Option ℚ) {w : ℤ} (hw : 0 < w) :
    evGt (evDiv a w) (evDiv b w) = evGt a b := by
  have hq : (0 : ℚ) < (w : ℚ) := by exact_mod_cast hw
  cases a <;> cases b <;> simp [evGt, evDiv, div_lt_div_iff_of_pos_right hq]

lemma evSum_map_some (l : List ℚ) : evSum (l.map some) = some l.sum := by
  induction l with
  | nil => simp [evSum]
  | cons a t ih => simp [evSum, evAdd, ih]

/-- The fold of `count` visits, as consecutive window states, the
length-`win.length` segments of `win ++ ms.map some`; the counter adds one
for each adjacent pair of segments on which `evGt` holds. -/
lemma foldl_count_eq (w : ℤ) (ms : List ℚ) :
    ∀ (win : List (Option ℚ)) (c : ℕ), win ≠ [] →
      (ms.foldl (count w) (c, win)).1 =
        c + (List.range ms.length).countP (fun k =>
          evGt (evDiv (evSum (((win ++ ms.map some).drop (k + 1)).take win.length)) w)
               (evDiv (evSum (((win ++ ms.map some).drop k).take win.length)) w)) := by
  induction ms with
  | nil => intro win c _; simp
  | cons m rest ih =>
    intro win c hwin
    obtain ⟨a, t, rfl⟩ : ∃ a t, win = a :: t := by
      cases win with
      | nil => exact absurd rfl hwin
      | cons a t => exact ⟨a, t, rfl⟩
    have htail : ((a :: t) ++ [some m]).tail = t ++ [some m] := by
      simp
    have hdrop : ((a :: t) ++ [some m]).dropLast = a :: t :=
      List.dropLast_concat
    have hcount : count w (c, a :: t) m =
        ((if evGt (evDiv (evSum (t ++ [some m])) w)
              (evDiv (evSum (a :: t)) w) then c + 1 else c),
          t ++ [some m]) := by
      simp only [count, htail, hdrop]
    rw [List.foldl_cons, hcount,
      ih (t ++ [some m]) _ (by simp)]
    rw [show (m :: rest).length = rest.length + 1 from rfl, List.range_succ_eq_map]
    simp only [List.countP_cons, List.countP_map]
    simp only [Function.comp_def, Nat.succ_eq_add_one, List.map_cons, List.cons_append,
      List.append_assoc, List.singleton_append, List.drop_succ_cons, List.drop_zero,
      List.length_cons, List.length_append, List.length_nil, Nat.zero_add]
    rw [show ∀ R : List (Option ℚ),
          (t ++ some m :: R).take (t.length + 1) = t ++ [some m] from fun R => by
        rw [List.take_append_eq_append_take, List.take_of_length_le (Nat.le_add_right _ _),
          Nat.add_sub_cancel_left]
        simp]
    rw [show (a :: (t ++ some m :: rest.map some)).take (t.length + 1) = a :: t from by
      rw [List.take_succ_cons, List.take_append_eq_append_take,
        List.take_length, Nat.sub_self]
      simp]
    cases hb : evGt (evDiv (evSum (t ++ [some m])) w) (evDiv (evSum (a :: t)) w) <;>
      simp [hb] <;> omega

/-- While the old window still contains a sentinel (the first `w` steps),
its extended sum is `+inf`, so no comparison can register an increase. -/
lemma evSum_seed_segment (w k : ℕ) (hw : 0 < w) (hk : k < w) (X : List (Option ℚ)) :
    evSum (((List.replicate w (none : Option ℚ) ++ X).drop k).take w) = none := by
  have h1 : w - k ≠ 0 := by omega
  obtain ⟨d, hd⟩ : ∃ d, w - k = d + 1 := ⟨w - k - 1, by omega⟩
  obtain ⟨w', hw'⟩ : ∃ w', w = w' + 1 := ⟨w - 1, by omega⟩
  have hdrop : (List.replicate w (none : Option ℚ) ++ X).drop k
      = List.replicate (w - k) (none : Option ℚ) ++ X := by
    rw [List.drop_append_of_le_length (by simp [Nat.le_of_lt hk]), List.drop_replicate]
  rw [hdrop, hd, List.replicate_succ, List.cons_append, hw', List.take_succ_cons]
  simp [evSum, evAdd]

/-- Once `k ≥ w`, the windows are the genuine measurement windows and the
comparison is the strict comparison of their sums. -/
lemma seed_segment_reaches (w j : ℕ) (ms : List ℚ) :
    ((List.replicate w (none : Option ℚ) ++ ms.map some).drop (w + j)).take w
      = ((ms.drop j).take w).map some := by
  have h1 : w - (w + j) = 0 := by omega
  have h2 : w + j - w = j := by omega
  rw [List.drop_append_eq_append_drop, List.drop_replicate]
  simp only [List.length_replicate, h1, h2, List.replicate_zero, List.nil_append]
  simp

/-- The predicate counted by the fold equals the specification count of
adjacent sliding-window sum increases. -/
lemma countP_windows (w : ℕ) (hw : 0 < w) (ms : List ℚ) :
    (List.range ms.length).countP (fun k =>
        evGt
          (evDiv (evSum (((List.replicate w (none : Option ℚ) ++ ms.map some).drop (k + 1)).take w)) (w : ℤ))
          (evDiv (evSum (((List.replicate w (none : Option ℚ) ++ ms.map some).drop k).take w)) (w : ℤ)))
      = specIncreases ms w := by
  have hwz : (0 : ℤ) < (w : ℤ) := by exact_mod_cast hw
  have hstrip :
      (List.range ms.length).countP (fun k =>
        evGt
          (evDiv (evSum (((List.replicate w (none : Option ℚ) ++ ms.map some).drop (k + 1)).take w)) (w : ℤ))
          (evDiv (evSum (((List.replicate w (none : Option ℚ) ++ ms.map some).drop k).take w)) (w : ℤ)))
      = (List.range ms.length).countP (fun k =>
        evGt
          (evSum (((List.replicate w (none : Option ℚ) ++ ms.map some).drop (k + 1)).take w))
          (evSum (((List.replicate w (none : Option ℚ) ++ ms.map some).drop k).take w))) := by
    apply List.countP_congr
    intro k _
    rw [evGt_evDiv _ _ hwz]
  rw [hstrip]
  by_cases hlen : ms.length ≤ w
  · rw [List.countP_eq_zero.mpr, specIncreases, Nat.sub_eq_zero_of_le hlen]
    · simp
    · intro k hk
      rw [List.mem_range] at hk
      simp only [evSum_seed_segment w k hw (by omega) (ms.map some), evGt_none,
        Bool.false_eq_true, not_false_eq_true]
  · rw [show ms.length = w + (ms.length - w) from by omega, List.range_add,
      List.countP_append, List.countP_eq_zero.mpr, List.countP_map]
    · rw [Nat.zero_add, specIncreases]
      apply List.countP_congr
      intro j _
      simp only [Function.comp_def]
      rw [show w + j + 1 = w + (j + 1) from by omega]
      rw [seed_segment_reaches w (j + 1) ms, seed_segment_reaches w j ms,
        evSum_map_some, evSum_map_some]
      rw [show evGt (some ((ms.drop (j + 1)).take w).sum) (some ((ms.drop j).take w).sum)
            = decide (((ms.drop j).take w).sum < ((ms.drop (j + 1)).take w).sum) from rfl]
      rw [windowSum, windowSum]
    · intro k hk
      rw [List.mem_range] at hk
      simp only [evSum_seed_segment w k hw hk (ms.map some), evGt_none,
        Bool.false_eq_true, not_false_eq_true]

/-- Core correctness of `increases` for positive window sizes: the fold
returns exactly the specification count of sliding-window sum increases. -/
lemma increases_eq_spec (ms : List ℚ) (w : ℕ) (hw : 0 < w) :
    increases ms (w : ℤ) = Except.ok (specIncreases ms w) := by
  rw [increases, if_neg (by omega : ¬ ((w : ℤ) ≤ 0))]
  have htn : ((w : ℤ)).toNat = w := Int.toNat_natCast w
  rw [htn, foldl_count_eq (w : ℤ) ms (List.replicate w none) 0 (by simp; omega),
    Nat.zero_add, List.length_replicate]
  exact congrArg Except.ok (countP_windows w hw ms)

lemma windowSum_cons (a : ℚ) (ms : List ℚ) (w j : ℕ) :
    windowSum (a :: ms) w (j + 1) = windowSum ms w j := by
  simp [windowSum]

/-- With window size 1, the specification count degenerates to counting
measurements strictly greater than their predecessor. -/
lemma specIncreases_one (ms : List ℚ) : specIncreases ms 1 = pairCount ms := by
  induction ms with
  | nil => rfl
  | cons a tl ih =>
    cases tl with
    | nil => rfl
    | cons b rest =>
      rw [specIncreases, show (a :: b :: rest).length - 1 = rest.length + 1 from by simp,
        List.range_succ_eq_map]
      simp only [List.countP_cons, List.countP_map, Function.comp_def, Nat.succ_eq_add_one]
      have hshift :
          (List.range rest.length).countP (fun k =>
            decide (windowSum (a :: b :: rest) 1 (k + 1) < windowSum (a :: b :: rest) 1 (k + 1 + 1)))
          = (List.range rest.length).countP (fun k =>
            decide (windowSum (b :: rest) 1 k < windowSum (b :: rest) 1 (k + 1))) := by
        apply List.countP_congr
        intro k _
        rw [windowSum_cons, windowSum_cons]
      rw [hshift]
      have hspec : (List.range rest.length).countP (fun k =>
            decide (windowSum (b :: rest) 1 k < windowSum (b :: rest) 1 (k + 1)))
          = specIncreases (b :: rest) 1 := by
        rw [specIncreases, show (b :: rest).length - 1 = rest.length from by simp]
      have hw0 : windowSum (a :: b :: rest) 1 0 = a := by
        simp [windowSum]
      have hw1 : windowSum (a :: b :: rest) 1 1 = b := by
        simp [windowSum]
      rw [hspec, ih, hw0, hw1, pairCount]
      by_cases hab : a < b <;> simp [hab] <;> omega

/-! ### Claims about `increases` -/

/-- C1: for every sequence of measurements and every positive
`window_size`, `increases` returns the count of positions at which the
sliding window of the most recent `window_size` measurements has a
strictly larger sum (equivalently average) than the immediately preceding
window; equal aggregates do not count as an increase. -/
theorem claim_C1_increases_counts_window_increases (ms : List ℚ) (w : ℕ) (hw : 0 < w) :
    increases ms (w : ℤ) = Except.ok (specIncreases ms w) :=
  increases_eq_spec ms w hw

theorem claim_C1_witness :
    0 < 3 ∧
      increases [199, 200, 208, 210, 200, 207, 240, 269, 260, 263] ((3 : ℕ) : ℤ)
        = Except.ok (specIncreases [199, 200, 208, 210, 200, 207, 240, 269, 260, 263] 3) ∧
      specIncreases [199, 200, 208, 210, 200, 207, 240, 269, 260, 263] 3 = 5 :=
  ⟨by decide,
    claim_C1_increases_counts_window_increases _ 3 (by decide),
    by norm_num [specIncreases, windowSum, List.range_succ]⟩

/-- C3 (counterexample to the claim as stated): for `window_size = 0` the
error message raised by the code is `"Window size must be greater than
zero"` (capital `W`), not `"window size must be greater than zero"` as the
claim quotes it. -/
theorem claim_C3_counterexample :
    increases [] 0 = Except.error ("Window size must be greater than zero") ∧
    increases [] 0 ≠ Except.error ("window size must be greater than zero") := by
  refine ⟨rfl, fun h => ?_⟩
  exact absurd (Except.error.inj ((rfl :
    increases [] 0 = Except.error ("Window size must be greater than zero")) ▸ h)) (by decide)

/-- C3 (amended): for every `window_size ≤ 0`, `increases` fails with the
`ValueError` message `"Window size must be greater than zero"` (capital
`W`) and produces no count; for every `window_size > 0` it does not raise
this error and returns a count. -/
theorem claim_C3_window_size_validation (ms : List ℚ) (wz : ℤ) :
    (wz ≤ 0 → increases ms wz = Except.error ("Window size must be greater than zero")) ∧
    (0 < wz → ∃ n, increases ms wz = Except.ok n) := by
  constructor
  · intro h
    rw [increases, if_pos h]
  · intro h
    exact ⟨_, by rw [increases, if_neg (by omega)]⟩

theorem claim_C3_witness :
    ((0 : ℤ) ≤ 0 ∧ increases [] 0 = Except.error ("Window size must be greater than zero")) ∧
    ((0 : ℤ) < 1 ∧ ∃ n, increases [] 1 = Except.ok n) :=
  ⟨⟨by decide, (claim_C3_window_size_validation [] 0).1 (by decide)⟩,
    ⟨by decide, (claim_C3_window_size_validation [] 1).2 (by decide)⟩⟩

/-- C5: on the example input, `increases` returns 7 for `window_size = 1`
and 5 for `window_size = 3`. -/
theorem claim_C5_example_counts :
    increases [199, 200, 208, 210, 200, 207, 240, 269, 260, 263] 1 = Except.ok 7 ∧
    increases [199, 200, 208, 210, 200, 207, 240, 269, 260, 263] 3 = Except.ok 5 := by
  have h1 := increases_eq_spec [199, 200, 208, 210, 200, 207, 240, 269, 260, 263] 1 (by norm_num)
  have h3 := increases_eq_spec [199, 200, 208, 210, 200, 207, 240, 269, 260, 263] 3 (by norm_num)
  rw [show ((1 : ℕ) : ℤ) = (1 : ℤ) from rfl] at h1
  rw [show ((3 : ℕ) : ℤ) = (3 : ℤ) from rfl] at h3
  refine ⟨?_, ?_⟩
  · rw [h1]
    norm_num [specIncreases, windowSum, List.range_succ]
  · rw [h3]
    norm_num [specIncreases, windowSum, List.range_succ]

/-- C7: with `window_size = 1` the windowed computation degenerates to the
pairwise comparison of each measurement with its immediate predecessor. -/
theorem claim_C7_window_one_is_pairwise (ms : List ℚ) :
    increases ms 1 = Except.ok (pairCount ms) := by
  have h := increases_eq_spec ms 1 (by norm_num)
  rw [show ((1 : ℕ) : ℤ) = (1 : ℤ) from rfl] at h
  rw [h, specIncreases_one]

/-- C8: a measurement sequence strictly shorter than the (positive) window
size produces zero increases: no full pair of adjacent windows ever forms,
and the infinity-sentinel seeding keeps the early comparisons from
registering. -/
theorem claim_C8_short_sequence_zero (ms : List ℚ) (w : ℕ) (hw : 0 < w)
    (hlen : ms.length < w) : increases ms (w : ℤ) = Except.ok 0 := by
  rw [increases_eq_spec ms w hw]
  simp [specIncreases, Nat.sub_eq_zero_of_le hlen.le]

theorem claim_C8_witness :
    0 < 3 ∧ ([1, 2] : List ℚ).length < 3 ∧ increases [1, 2] ((3 : ℕ) : ℤ) = Except.ok 0 :=
  ⟨by decide, by decide, claim_C8_short_sequence_zero [1, 2] 3 (by decide) (by decide)⟩

end Day01

namespace Day02

def MOVE_UP : String := "up"

def MOVE_DOWN : String := "down"

def MOVE_FORWARD : String := "forward"

/-- The Python `ValueError`s that can be raised while interpreting or
processing one instruction line:

* `unpackError` — `ValueError: not enough values to unpack`: the line has
  no space character, so `instruction.split(" ", 1)` yields one element
  and the tuple unpacking `action, units = ...` in `interpret` fails;
* `intParseError text` — `ValueError: invalid literal for int() ...`: the
  text after the first space is not an integer literal;
* `unknownCommand action` — `ValueError(f"Unknown pilot command: {action}")`
  raised by `process_simple` / `process_advanced`, carrying the offending
  direction token. -/
inductive PilotError where
  | unpackError : PilotError
  | intParseError (text : String) : PilotError
  | unknownCommand (action : String) : PilotError

/-- Model of Python `instruction.split(" ", 1)` followed by unpacking into
two variables: locate the first space, return the text before and after
it, or `none` when the line has no space (unpacking then fails). -/
def splitOnFirstSpace : List Char → Option (List Char × List Char)
  | [] => none
  | c :: rest =>
    if c = ' ' then some ([], rest)
    else (splitOnFirstSpace rest).map (fun p => (c :: p.1, p.2))

/-- The ASCII whitespace characters Python `int()` strips from both ends
of its argument. -/
def isPySpace (c : Char) : Bool :=
  c = ' ' || c = '\t' || c = '\n' || c = '\r' || c = '\x0b' || c = '\x0c'

/-- Numeric value of a decimal digit character. -/
def digitVal (c : Char) : ℕ := c.toNat - 48

def digitsToNatAux : List Char → ℕ → Option ℕ
  | [], acc => some acc
  | c :: rest, acc =>
    if c.isDigit then digitsToNatAux rest (10 * acc + digitVal c) else none

/-- Parse a nonempty all-digit string to its value; `none` otherwise. -/
def digitsToNat : List Char → Option ℕ
  | [] => none
  | c :: rest => digitsToNatAux (c :: rest) 0

/-- Model of Python `int(s)` in base 10 on the stripped character list:
an optional sign followed by a nonempty digit string.  (Python also
accepts underscores between digits; they never occur in this repository's
inputs and are not modelled.) -/
def pyIntCore (cs : List Char) : Option ℤ :=
  match cs with
  | [] => none
  | c :: rest =>
    if c = '+' then (digitsToNat rest).map (fun n => (n : ℤ))
    else if c = '-' then (digitsToNat rest).map (fun n => -(n : ℤ))
    else (digitsToNat (c :: rest)).map (fun n => (n : ℤ))

/-- Model of Python `int(s)`: strip whitespace from both ends, then parse
an optionally signed decimal literal. -/
def pyInt (s : String) : Option ℤ :=
  pyIntCore ((s.data.dropWhile isPySpace).reverse.dropWhile isPySpace).reverse

/-- Embedding of `interpret` (src/2021/02/day02.py, lines 94–107): split
the instruction at the first space and convert the remainder with `int`,
returning the (action, units) pair. -/
def interpret (instruction : String) : Except PilotError (String × ℤ) :=
  match splitOnFirstSpace instruction.data with
  | none => Except.error PilotError.unpackError
  | some (action, unitsText) =>
    match pyInt (String.mk unitsText) with
    | none => Except.error (PilotError.intParseError (String.mk unitsText))
    | some units => Except.ok (String.mk action, units)

/-- Embedding of `process_simple` (src/2021/02/day02.py, lines 110–137):
state is `(horiz, depth)`; `up` decreases depth, `down` increases depth,
`forward` increases horizontal; any other action raises
`ValueError(f"Unknown pilot command: {action}")`. -/
def process_simple (last : ℤ × ℤ) (instruction : String) :
    Except PilotError (ℤ × ℤ) :=
  match interpret instruction with
  | Except.error e => Except.error e
  | Except.ok (action, units) =>
    if action = MOVE_UP then Except.ok (last.1, last.2 - units)
    else if action = MOVE_DOWN then Except.ok (last.1, last.2 + units)
    else if action = MOVE_FORWARD then Except.ok (last.1 + units, last.2)
    else Except.error (PilotError.unknownCommand action)

/-- Embedding of `process_advanced` (src/2021/02/day02.py, lines 140–169):
state is `(horiz, depth, aim)`; `up` decreases aim, `down` increases aim,
`forward` increases horizontal by the units and depth by `units * aim`. -/
def process_advanced (last : ℤ × ℤ × ℤ) (instruction : String) :
    Except PilotError (ℤ × ℤ × ℤ) :=
  match interpret instruction with
  | Except.error e => Except.error e
  | Except.ok (action, units) =>
    if action = MOVE_UP then Except.ok (last.1, last.2.1, last.2.2 - units)
    else if action = MOVE_DOWN then Except.ok (last.1, last.2.1, last.2.2 + units)
    else if action = MOVE_FORWARD then
      Except.ok (last.1 + units, last.2.1 + units * last.2.2, last.2.2)
    else Except.error (PilotError.unknownCommand action)

/-- Model of `functools.reduce` with a step function that may raise: the
first raised exception aborts the fold and propagates to the caller. -/
def reduceE {σ : Type} (f : σ → String → Except PilotError σ) :
    σ → List String → Except PilotError σ
  | s, [] => Except.ok s
  | s, i :: rest =>
    match f s i with
    | Except.error e => Except.error e
    | Except.ok s' => reduceE f s' rest

/-- Embedding of `pilot` (src/2021/02/day02.py, lines 172–189): reduce the
instructions through the selected processor from the all-zero state and
return `horiz * depth`. -/
def pilot (instructions : List String) (advanced : Bool) : Except PilotError ℤ :=
  if advanced then
    match reduceE process_advanced (0, 0, 0) instructions with
    | Except.error e => Except.error e
    | Except.ok (horiz, depth, _) => Except.ok (horiz * depth)
  else
    match reduceE process_simple (0, 0) instructions with
    | Except.error e => Except.error e
    | Except.ok (horiz, depth) => Except.ok (horiz * depth)

/-- The example course from the challenge text. -/
def exampleCourse : List String :=
  ["forward 5", "down 5", "forward 8", "up 3", "down 8", "forward 2"]

/-! ### Supporting lemmas for the position tracker -/

lemma not_space_of_digit (c : Char) (h : c.isDigit = true) : isPySpace c = false := by
  have h1 : c ≠ ' ' := fun e => absurd (e ▸ h) (by decide)
  have h2 : c ≠ '\t' := fun e => absurd (e ▸ h) (by decide)
  have h3 : c ≠ '\n' := fun e => absurd (e ▸ h) (by decide)
  have h4 : c ≠ '\r' := fun e => absurd (e ▸ h) (by decide)
  have h5 : c ≠ '\x0b' := fun e => absurd (e ▸ h) (by decide)
  have h6 : c ≠ '\x0c' := fun e => absurd (e ▸ h) (by decide)
  simp [isPySpace, h1, h2, h3, h4, h5, h6]

lemma ne_plus_of_digit (c : Char) (h : c.isDigit = true) : c ≠ '+' :=
  fun e => absurd (e ▸ h) (by decide)

lemma ne_minus_of_digit (c : Char) (h : c.isDigit = true) : c ≠ '-' :=
  fun e => absurd (e ▸ h) (by decide)

lemma dropWhile_digits (l : List Char) (h : ∀ c ∈ l, c.isDigit = true) :
    l.dropWhile isPySpace = l := by
  cases l with
  | nil => rfl
  | cons c t =>
    rw [List.dropWhile_cons,
      if_neg (by simp [not_space_of_digit c (h c (List.mem_cons_self c t))])]

lemma digitsToNatAux_eq (ds : List Char) (hdig : ∀ c ∈ ds, c.isDigit = true) :
    ∀ acc : ℕ, digitsToNatAux ds acc
      = some (acc * 10 ^ ds.length + Nat.ofDigits 10 ((ds.map digitVal).reverse)) := by
  induction ds with
  | nil => intro acc; simp [digitsToNatAux, Nat.ofDigits]
  | cons c t ih =>
    intro acc
    simp only [digitsToNatAux, if_pos (hdig c (List.mem_cons_self c t))]
    rw [ih (fun x hx => hdig x (List.mem_cons_of_mem c hx)) (10 * acc + digitVal c)]
    congr 1
    rw [List.map_cons, List.reverse_cons, Nat.ofDigits_append, Nat.ofDigits_singleton,
      List.length_reverse, List.length_map, List.length_cons]
    ring

lemma digitsToNat_eq (ds : List Char) (hne : ds ≠ [])
    (hdig : ∀ c ∈ ds, c.isDigit = true) :
    digitsToNat ds = some (Nat.ofDigits 10 ((ds.map digitVal).reverse)) := by
  obtain ⟨c, t, rfl⟩ := List.exists_cons_of_ne_nil hne
  rw [digitsToNat, digitsToNatAux_eq (c :: t) hdig 0]
  simp

lemma pyInt_digits (ds : List Char) (hne : ds ≠ [])
    (hdig : ∀ c ∈ ds, c.isDigit = true) :
    pyInt (String.mk ds) = some ((Nat.ofDigits 10 ((ds.map digitVal).reverse) : ℕ) : ℤ) := by
  have h1 : ds.dropWhile isPySpace = ds := dropWhile_digits ds hdig
  have h2 : ds.reverse.dropWhile isPySpace = ds.reverse :=
    dropWhile_digits ds.reverse (fun c hc => hdig c (List.mem_reverse.mp hc))
  rw [pyInt, show (String.mk ds).data = ds from rfl, h1, h2, List.reverse_reverse]
  obtain ⟨c, t, rfl⟩ := List.exists_cons_of_ne_nil hne
  have hc := hdig c (List.mem_cons_self c t)
  rw [pyIntCore, if_neg (ne_plus_of_digit c hc), if_neg (ne_minus_of_digit c hc),
    digitsToNat_eq (c :: t) (by simp) hdig]
  rfl

lemma pyInt_neg_digits (ds : List Char) (hne : ds ≠ [])
    (hdig : ∀ c ∈ ds, c.isDigit = true) :
    pyInt (String.mk ('-' :: ds))
      = some (-((Nat.ofDigits 10 ((ds.map digitVal).reverse) : ℕ) : ℤ)) := by
  obtain ⟨e, es, he⟩ := List.exists_cons_of_ne_nil
    (fun h => hne (List.reverse_eq_nil_iff.mp h) : ds.reverse ≠ [])
  have hedig : e.isDigit = true := hdig e (List.mem_reverse.mp (he ▸ List.mem_cons_self e es))
  have h1 : ('-' :: ds).dropWhile isPySpace = '-' :: ds := by
    rw [List.dropWhile_cons, if_neg (by decide)]
  have h2 : ('-' :: ds).reverse.dropWhile isPySpace = ('-' :: ds).reverse := by
    rw [List.reverse_cons, he, List.cons_append, List.dropWhile_cons,
      if_neg (by simp [not_space_of_digit e hedig]), ← List.cons_append, ← he,
      ← List.reverse_cons]
  rw [pyInt, show (String.mk ('-' :: ds)).data = '-' :: ds from rfl, h1, h2,
    List.reverse_reverse, pyIntCore, if_neg (by decide), if_pos rfl,
    digitsToNat_eq ds hne hdig]
  rfl

lemma splitOnFirstSpace_append (dcs : List Char) (hsp : (' ' : Char) ∉ dcs)
    (ucs : List Char) :
    splitOnFirstSpace (dcs ++ ' ' :: ucs) = some (dcs, ucs) := by
  induction dcs with
  | nil => simp [splitOnFirstSpace]
  | cons c t ih =>
    have hc : ¬ (c = ' ') := fun e => hsp (by rw [e]; exact List.mem_cons_self _ _)
    rw [List.cons_append, splitOnFirstSpace, if_neg hc,
      ih (fun h => hsp (List.mem_cons_of_mem c h))]
    rfl

/-- A well-formed instruction line—space-free action token, one space,
then text accepted by `int()`—is interpreted as the (action, value)
pair. -/
lemma interpret_append (d u : String) (hsp : (' ' : Char) ∉ d.data) (n : ℤ)
    (hu : pyInt u = some n) : interpret (d ++ " " ++ u) = Except.ok (d, n) := by
  have hdata : (d ++ " " ++ u).data = d.data ++ ' ' :: u.data := by
    simp [String.data_append]
  have hsplit : splitOnFirstSpace (d ++ " " ++ u).data = some (d.data, u.data) := by
    rw [hdata]
    exact splitOnFirstSpace_append d.data hsp u.data
  have hu' : pyInt (String.mk u.data) = some n := hu
  rw [interpret, hsplit]
  show (match pyInt (String.mk u.data) with
    | none => Except.error (PilotError.intParseError (String.mk u.data))
    | some units => Except.ok (String.mk d.data, units)) = Except.ok (d, n)
  rw [hu']

lemma reduceE_append {σ : Type} (f : σ → String → Except PilotError σ)
    (pre : List String) :
    ∀ (s s' : σ), reduceE f s pre = Except.ok s' →
      ∀ xs, reduceE f s (pre ++ xs) = reduceE f s' xs := by
  induction pre with
  | nil =>
    intro s s' h xs
    rw [reduceE] at h
    cases h
    simp
  | cons i rest ih =>
    intro s s' h xs
    rw [reduceE] at h
    rw [List.cons_append, reduceE]
    cases hf : f s i with
    | error e =>
      rw [hf] at h
      exact Except.noConfusion h
    | ok s1 =>
      rw [hf] at h
      exact ih s1 s' h xs

/-- Step relation between the two modes: whenever `process_simple`
succeeds from `(h, d)`, `process_advanced` succeeds from `(h, dd, d)` for
any depth `dd`, preserving the horizontal component and carrying the
simple-mode depth in the aim slot. -/
lemma process_advanced_matches_simple (inst : String) (hz dz dd : ℤ) (q : ℤ × ℤ)
    (hstep : process_simple (hz, dz) inst = Except.ok q) :
    ∃ dd', process_advanced (hz, dd, dz) inst = Except.ok (q.1, dd', q.2) := by
  cases hi : interpret inst with
  | error e =>
    rw [process_simple, hi] at hstep
    exact Except.noConfusion hstep
  | ok p =>
    obtain ⟨action, units⟩ := p
    simp only [process_simple, hi] at hstep
    simp only [process_advanced, hi]
    by_cases h1 : action = MOVE_UP
    · rw [if_pos h1] at hstep ⊢
      cases hstep
      exact ⟨dd, rfl⟩
    · rw [if_neg h1] at hstep ⊢
      by_cases h2 : action = MOVE_DOWN
      · rw [if_pos h2] at hstep ⊢
        cases hstep
        exact ⟨dd, rfl⟩
      · rw [if_neg h2] at hstep ⊢
        by_cases h3 : action = MOVE_FORWARD
        · rw [if_pos h3] at hstep ⊢
          cases hstep
          exact ⟨dd + units * dz, rfl⟩
        · rw [if_neg h3] at hstep
          exact Except.noConfusion hstep

/-- Fold-level refinement: a successful simple-mode fold forces the
advanced-mode fold from the related state to succeed with the same
horizontal and with the simple-mode depth as its aim. -/
lemma reduceE_advanced_refines (il : List String) :
    ∀ (hz dz dd : ℤ) (p : ℤ × ℤ),
      reduceE process_simple (hz, dz) il = Except.ok p →
      ∃ dd', reduceE process_advanced (hz, dd, dz) il = Except.ok (p.1, dd', p.2) := by
  induction il with
  | nil =>
    intro hz dz dd p h
    rw [reduceE] at h
    cases h
    exact ⟨dd, rfl⟩
  | cons i rest ih =>
    intro hz dz dd p h
    rw [reduceE] at h ⊢
    cases hf : process_simple (hz, dz) i with
    | error e =>
      rw [hf] at h
      exact Except.noConfusion h
    | ok q =>
      rw [hf] at h
      obtain ⟨q1, q2⟩ := q
      obtain ⟨dd', hadv⟩ := process_advanced_matches_simple i hz dz dd (q1, q2) hf
      obtain ⟨ddm, hrest⟩ := ih q1 q2 dd' p h
      exact ⟨ddm, by rw [hadv]; exact hrest⟩

/-! ### Claims about the position tracker -/

/-- C2: folding the example course in order from the all-zero state yields
horizontal 15 and depth 10 (product 150) in simple mode, and horizontal 15,
depth 60, aim 10 (product 900) in advanced mode. -/
theorem claim_C2_example_course :
    reduceE process_simple (0, 0) exampleCourse = Except.ok (15, 10) ∧
    pilot exampleCourse false = Except.ok 150 ∧
    reduceE process_advanced (0, 0, 0) exampleCourse = Except.ok (15, 60, 10) ∧
    pilot exampleCourse true = Except.ok 900 :=
  ⟨rfl, rfl, rfl, rfl⟩

/-- C4: an instruction whose direction token is not `up`, `down` or
`forward` makes `pilot` fail, in both modes, with the
`Unknown pilot command` error carrying the bad token; the fold aborts at
that first malformed record whatever follows it. -/
theorem claim_C4_unknown_direction_aborts (pre : List String) (d units : String)
    (rest : List String) (hd : d ∉ [MOVE_UP, MOVE_DOWN, MOVE_FORWARD])
    (hsp : (' ' : Char) ∉ d.data) (hu : (pyInt units).isSome = true)
    (s2 : ℤ × ℤ) (s3 : ℤ × ℤ × ℤ)
    (hpre2 : reduceE process_simple (0, 0) pre = Except.ok s2)
    (hpre3 : reduceE process_advanced (0, 0, 0) pre = Except.ok s3) :
    pilot (pre ++ (d ++ " " ++ units) :: rest) false
      = Except.error (PilotError.unknownCommand d) ∧
    pilot (pre ++ (d ++ " " ++ units) :: rest) true
      = Except.error (PilotError.unknownCommand d) := by
  obtain ⟨n, hn⟩ := Option.isSome_iff_exists.mp hu
  have hint := interpret_append d units hsp n hn
  have hd1 : ¬ (d = MOVE_UP) := fun e => hd (by rw [e]; simp)
  have hd2 : ¬ (d = MOVE_DOWN) := fun e => hd (by rw [e]; simp)
  have hd3 : ¬ (d = MOVE_FORWARD) := fun e => hd (by rw [e]; simp)
  have hps : process_simple s2 (d ++ " " ++ units)
      = Except.error (PilotError.unknownCommand d) := by
    simp only [process_simple, hint, if_neg hd1, if_neg hd2, if_neg hd3]
  have hpa : process_advanced s3 (d ++ " " ++ units)
      = Except.error (PilotError.unknownCommand d) := by
    simp only [process_advanced, hint, if_neg hd1, if_neg hd2, if_neg hd3]
  constructor
  · rw [pilot, if_neg (by simp),
      reduceE_append process_simple pre (0, 0) s2 hpre2, reduceE, hps]
  · rw [pilot, if_pos rfl,
      reduceE_append process_advanced pre (0, 0, 0) s3 hpre3, reduceE, hpa]

theorem claim_C4_witness :
    ("left" ∉ [MOVE_UP, MOVE_DOWN, MOVE_FORWARD]) ∧
    ((' ' : Char) ∉ "left".data) ∧ (pyInt ("3")).isSome = true ∧
    reduceE process_simple (0, 0) ["forward 5"] = Except.ok (5, 0) ∧
    reduceE process_advanced (0, 0, 0) ["forward 5"] = Except.ok (5, 0, 0) ∧
    pilot (["forward 5"] ++ ("left" ++ " " ++ "3") :: ["down 2"]) false
      = Except.error (PilotError.unknownCommand ("left")) ∧
    pilot (["forward 5"] ++ ("left" ++ " " ++ "3") :: ["down 2"]) true
      = Except.error (PilotError.unknownCommand ("left")) := by
  have h := claim_C4_unknown_direction_aborts ["forward 5"] "left" "3" ["down 2"]
    (by decide) (by decide) (by decide) (5, 0) (5, 0, 0) rfl rfl
  exact ⟨by decide, by decide, by decide, rfl, rfl, h.1, h.2⟩

/-- C6 (counterexample to the claim as stated): a tab character is
whitespace, but `"up\t3"` is not parsed into `("up", 3)` — the code splits
only on a space character, so the tuple unpacking fails. -/
theorem claim_C6_counterexample :
    interpret ("up\t3") = Except.error PilotError.unpackError ∧
    interpret ("up\t3") ≠ Except.ok ("up", 3) := by
  refine ⟨rfl, fun h => ?_⟩
  rw [show interpret ("up\t3") = Except.error PilotError.unpackError from rfl] at h
  exact Except.noConfusion h

/-- C6 (amended): for every direction token in `{up, down, forward}` and
every non-negative integer magnitude written as a nonempty digit string,
the line `<direction> <magnitude>` with a single space separator is parsed
by `interpret` into the pair (direction, magnitude). -/
theorem claim_C6_parse_instruction_line (d : String)
    (hd : d ∈ [MOVE_UP, MOVE_DOWN, MOVE_FORWARD]) (ds : List Char) (hne : ds ≠ [])
    (hdig : ∀ c ∈ ds, c.isDigit = true) :
    interpret (d ++ " " ++ String.mk ds)
      = Except.ok (d, ((Nat.ofDigits 10 ((ds.map digitVal).reverse) : ℕ) : ℤ)) := by
  simp only [List.mem_cons, List.not_mem_nil, or_false] at hd
  rcases hd with rfl | rfl | rfl <;>
    exact interpret_append _ _ (by decide) _ (pyInt_digits ds hne hdig)

theorem claim_C6_witness :
    ("forward" ∈ [MOVE_UP, MOVE_DOWN, MOVE_FORWARD]) ∧ (['5'] ≠ ([] : List Char)) ∧
    (∀ c ∈ ['5'], c.isDigit = true) ∧
    interpret ("forward" ++ " " ++ String.mk ['5'])
      = Except.ok ("forward", ((Nat.ofDigits 10 ((['5'].map digitVal).reverse) : ℕ) : ℤ)) ∧
    ((Nat.ofDigits 10 ((['5'].map digitVal).reverse) : ℕ) : ℤ) = 5 :=
  ⟨by decide, by decide, by decide,
    claim_C6_parse_instruction_line MOVE_FORWARD (by decide) ['5'] (by decide) (by decide),
    by decide⟩

/-- C9: whenever the simple-mode fold succeeds from `(h, d)`, the
advanced-mode fold from any state `(h, dd, d)` — same horizontal, aim
equal to the simple-mode depth — succeeds with the same horizontal and
with final aim equal to the simple-mode final depth; since both folds
start all-zero, the invariant holds step by step along any recognized
instruction sequence. -/
theorem claim_C9_advanced_tracks_simple (il : List String) (hz dz dd : ℤ)
    (p : ℤ × ℤ) (hsim : reduceE process_simple (hz, dz) il = Except.ok p) :
    ∃ dd', reduceE process_advanced (hz, dd, dz) il = Except.ok (p.1, dd', p.2) :=
  reduceE_advanced_refines il hz dz dd p hsim

theorem claim_C9_witness :
    reduceE process_simple (0, 0) exampleCourse = Except.ok (15, 10) ∧
    ∃ dd', reduceE process_advanced (0, 0, 0) exampleCourse = Except.ok (15, dd', 10) :=
  ⟨rfl, claim_C9_advanced_tracks_simple exampleCourse 0 0 0 (15, 10) rfl⟩

/-- C10: `interpret` enforces no non-negativity on the magnitude — a
recognized direction with a negative decimal magnitude parses to the
signed value, and both processors fold it without any error. -/
theorem claim_C10_negative_magnitude_accepted (d : String)
    (hd : d ∈ [MOVE_UP, MOVE_DOWN, MOVE_FORWARD]) (ds : List Char) (hne : ds ≠ [])
    (hdig : ∀ c ∈ ds, c.isDigit = true) :
    interpret (d ++ " " ++ String.mk ('-' :: ds))
      = Except.ok (d, -((Nat.ofDigits 10 ((ds.map digitVal).reverse) : ℕ) : ℤ)) ∧
    (∀ s2 : ℤ × ℤ, ∃ r2,
      process_simple s2 (d ++ " " ++ String.mk ('-' :: ds)) = Except.ok r2) ∧
    (∀ s3 : ℤ × ℤ × ℤ, ∃ r3,
      process_advanced s3 (d ++ " " ++ String.mk ('-' :: ds)) = Except.ok r3) := by
  simp only [List.mem_cons, List.not_mem_nil, or_false] at hd
  have hpy := pyInt_neg_digits ds hne hdig
  rcases hd with rfl | rfl | rfl
  · have hint := interpret_append MOVE_UP (String.mk ('-' :: ds)) (by decide) _ hpy
    refine ⟨hint, fun s2 => ?_, fun s3 => ?_⟩
    · refine ⟨(s2.1, s2.2 - -((Nat.ofDigits 10 ((ds.map digitVal).reverse) : ℕ) : ℤ)), ?_⟩
      simp only [process_simple, hint]
      simp
    · refine ⟨(s3.1, s3.2.1, s3.2.2 - -((Nat.ofDigits 10 ((ds.map digitVal).reverse) : ℕ) : ℤ)), ?_⟩
      simp only [process_advanced, hint]
      simp
  · have hint := interpret_append MOVE_DOWN (String.mk ('-' :: ds)) (by decide) _ hpy
    refine ⟨hint, fun s2 => ?_, fun s3 => ?_⟩
    · refine ⟨(s2.1, s2.2 + -((Nat.ofDigits 10 ((ds.map digitVal).reverse) : ℕ) : ℤ)), ?_⟩
      simp only [process_simple, hint]
      simp [show MOVE_DOWN ≠ MOVE_UP from by decide]
    · refine ⟨(s3.1, s3.2.1, s3.2.2 + -((Nat.ofDigits 10 ((ds.map digitVal).reverse) : ℕ) : ℤ)), ?_⟩
      simp only [process_advanced, hint]
      simp [show MOVE_DOWN ≠ MOVE_UP from by decide]
  · have hint := interpret_append MOVE_FORWARD (String.mk ('-' :: ds)) (by decide) _ hpy
    refine ⟨hint, fun s2 => ?_, fun s3 => ?_⟩
    · refine ⟨(s2.1 + -((Nat.ofDigits 10 ((ds.map digitVal).reverse) : ℕ) : ℤ), s2.2), ?_⟩
      simp only [process_simple, hint]
      simp [show MOVE_FORWARD ≠ MOVE_UP from by decide, show MOVE_FORWARD ≠ MOVE_DOWN from by decide]
    · refine ⟨(s3.1 + -((Nat.ofDigits 10 ((ds.map digitVal).reverse) : ℕ) : ℤ),
        s3.2.1 + -((Nat.ofDigits 10 ((ds.map digitVal).reverse) : ℕ) : ℤ) * s3.2.2, s3.2.2), ?_⟩
      simp only [process_advanced, hint]
      simp [show MOVE_FORWARD ≠ MOVE_UP from by decide, show MOVE_FORWARD ≠ MOVE_DOWN from by decide]

theorem claim_C10_witness :
    ("down" ∈ [MOVE_UP, MOVE_DOWN, MOVE_FORWARD]) ∧ (['3'] ≠ ([] : List Char)) ∧
    (∀ c ∈ ['3'], c.isDigit = true) ∧
    interpret ("down" ++ " " ++ String.mk ['-', '3'])
      = Except.ok ("down", -((Nat.ofDigits 10 ((['3'].map digitVal).reverse) : ℕ) : ℤ)) ∧
    (∃ r2, process_simple (0, 0) ("down" ++ " " ++ String.mk ['-', '3']) = Except.ok r2) ∧
    (∃ r3, process_advanced (0, 0, 0) ("down" ++ " " ++ String.mk ['-', '3']) = Except.ok r3) := by
  have h := claim_C10_negative_magnitude_accepted MOVE_DOWN (by decide) ['3']
    (by decide) (by decide)
  exact ⟨by decide, by decide, by decide, h.1, h.2.1 (0, 0), h.2.2 (0, 0, 0)⟩

end Day02
